import Mathlib

/-!
Shallow embedding of the Skill Gomoku core (`rules.py`, `skills.py`,
`engine.py`, `config.py`) and a verification of its specification claims.

Conventions:
* board cells are natural numbers: 0 = EMPTY, 1 = BLACK, 2 = WHITE;
* grid coordinates are integers (Python ints);
* Python dict cooldown tables are modelled as total functions `ℕ → ℤ`;
  every observation the source makes goes through `dict.get(k, default)`,
  so the function model is observationally faithful;
* Python floats (the mighty-power probability constants) are modelled as
  exact rationals;
* the one random draw (`random.random()` in `cast_libashanxi`) is passed in
  as an explicit `roll` argument.
-/

namespace SG

/-- Board cells: 0 = empty, 1 = black, 2 = white (rules.py `EMPTY`/`BLACK`/`WHITE`).
A board is the 2D row-major list `board`, indexed `board[y][x]`. -/
abbrev Board := List (List ℕ)

/-- Read `board[y][x]` for indices already checked to be in range
(out-of-range reads default to 0; in-range reads coincide with Python). -/
def cell (b : Board) (x y : ℤ) : ℕ := ((b[y.toNat]?.getD [])[x.toNat]?).getD 0

/-- Python list indexing `l[i]`: a negative index wraps once from the end;
anything else out of range raises IndexError, modelled as `none`. -/
def pyGet {α : Type} (l : List α) (i : ℤ) : Option α :=
  if 0 ≤ i then l[i.toNat]?
  else if 0 ≤ (l.length : ℤ) + i then l[((l.length : ℤ) + i).toNat]?
  else none

/-- Python `board[y][x]` with full Python indexing semantics
(used for the unguarded read at the top of `check_five`). -/
def pyCell (b : Board) (x y : ℤ) : Option ℕ :=
  (pyGet b y).bind fun row => pyGet row x

/-- The board-shape invariant of the data model: a square grid
(every row exactly as long as the list of rows). -/
def square (b : Board) : Prop := ∀ r ∈ b, r.length = b.length

instance square.dec (b : Board) : Decidable (square b) := by
  unfold square; exact List.decidableBAll _ b

/-- The loop guard inside `check_five.count_dir`:
`0 <= i < size and 0 <= j < size and board[j][i] == side`. -/
def goodCell (b : Board) (side : ℕ) (i j : ℤ) : Prop :=
  0 ≤ i ∧ i < (b.length : ℤ) ∧ 0 ≤ j ∧ j < (b.length : ℤ) ∧ cell b i j = side

instance goodCell.dec (b : Board) (side : ℕ) (i j : ℤ) : Decidable (goodCell b side i j) := by
  unfold goodCell; infer_instance

/-- One of the two while loops inside `count_dir`: the number of consecutive
steps from `(i, j)` along `(dx, dy)` on which the guard holds.  The fuel
`b.length + 5` used below strictly exceeds any possible run length: a run
stays inside the `b.length × b.length` square and each step moves one cell
along a direction with a unit component. -/
def countWhile (b : Board) (side : ℕ) (dx dy : ℤ) : ℤ → ℤ → ℕ → ℕ
  | _, _, 0 => 0
  | i, j, f + 1 =>
    if goodCell b side i j then countWhile b side dx dy (i + dx) (j + dy) f + 1 else 0

/-- The function `check_five.count_dir`: 1 (the placed stone) plus the forward run plus the
backward run (the second loop `i -= dx; j -= dy` is the loop along `(-dx, -dy)`). -/
def count_dir (b : Board) (side : ℕ) (x y dx dy : ℤ) : ℕ :=
  1 + countWhile b side dx dy (x + dx) (y + dy) (b.length + 5)
    + countWhile b side (-dx) (-dy) (x - dx) (y - dy) (b.length + 5)

/-- The four scan directions of `check_five`. -/
def dirs : List (ℤ × ℤ) := [(1, 0), (0, 1), (1, 1), (1, -1)]

/-- rules.check_five.  Faithful to the Python source: `last_pos is None`
returns False; the unguarded read `side = board[y][x]` uses Python indexing
(negative wrap; IndexError modelled as `none`); `side not in (BLACK, WHITE)`
returns False; otherwise the four directions are scanned. -/
def check_five (b : Board) (last_pos : Option (ℤ × ℤ)) : Option Bool :=
  match last_pos with
  | none => some false
  | some (x, y) =>
    match pyCell b x y with
    | none => none
    | some side =>
      if side ≠ 1 ∧ side ≠ 2 then some false
      else some (dirs.any fun d => decide (5 ≤ count_dir b side x y d.1 d.2))

/-- Specification-side predicate for C2: along direction `(dx, dy)` there is a
window of 5 consecutive cells that contains the placed stone (offset 0 is at
offsets `-a .. 4-a` for some `0 ≤ a ≤ 4`), each in range and holding `side`.
Equivalently: the direction's line contains a contiguous run of at least 5
same-side stones including the placed stone. -/
def window5 (b : Board) (side : ℕ) (x y dx dy : ℤ) : Prop :=
  ∃ a : ℕ, a ≤ 4 ∧ ∀ t : ℤ, -(a : ℤ) ≤ t → t ≤ 4 - (a : ℤ) →
    goodCell b side (x + t * dx) (y + t * dy)

lemma countWhile_good (b : Board) (side : ℕ) (dx dy : ℤ) :
    ∀ (f : ℕ) (i j : ℤ) (t : ℕ), t < countWhile b side dx dy i j f →
      goodCell b side (i + t * dx) (j + t * dy) := by
  intro f
  induction f with
  | zero => intro i j t ht; simp [countWhile] at ht
  | succ f ih =>
    intro i j t ht
    rw [countWhile] at ht
    by_cases hg : goodCell b side i j
    · rw [if_pos hg] at ht
      cases t with
      | zero => simpa using hg
      | succ t' =>
        have h := ih (i + dx) (j + dy) t' (by omega)
        have e1 : i + dx + (t' : ℤ) * dx = i + ((t' : ℕ) + 1 : ℕ) * dx := by push_cast; ring
        have e2 : j + dy + (t' : ℤ) * dy = j + ((t' : ℕ) + 1 : ℕ) * dy := by push_cast; ring
        rw [e1, e2] at h
        exact h
    · rw [if_neg hg] at ht; omega

lemma countWhile_ge (b : Board) (side : ℕ) (dx dy : ℤ) :
    ∀ (f n : ℕ) (i j : ℤ), n ≤ f →
      (∀ t : ℕ, t < n → goodCell b side (i + t * dx) (j + t * dy)) →
      n ≤ countWhile b side dx dy i j f := by
  intro f
  induction f with
  | zero => intro n i j hn _; omega
  | succ f ih =>
    intro n i j hn hall
    cases n with
    | zero => omega
    | succ m =>
      have h0 : goodCell b side i j := by simpa using hall 0 (by omega)
      rw [countWhile, if_pos h0]
      have hm : m ≤ countWhile b side dx dy (i + dx) (j + dy) f := by
        refine ih m (i + dx) (j + dy) (by omega) ?_
        intro t ht
        have h := hall (t + 1) (by omega)
        have e1 : i + ((t : ℕ) + 1 : ℕ) * dx = i + dx + (t : ℤ) * dx := by push_cast; ring
        have e2 : j + ((t : ℕ) + 1 : ℕ) * dy = j + dy + (t : ℤ) * dy := by push_cast; ring
        rw [e1, e2] at h
        exact h
      omega

lemma count_dir_iff (b : Board) (side : ℕ) (x y dx dy : ℤ)
    (h0 : goodCell b side x y) :
    5 ≤ count_dir b side x y dx dy ↔ window5 b side x y dx dy := by
  constructor
  · intro h5
    set F := countWhile b side dx dy (x + dx) (y + dy) (b.length + 5) with hF
    set B := countWhile b side (-dx) (-dy) (x - dx) (y - dy) (b.length + 5) with hB
    have hFB : 4 ≤ F + B := by unfold count_dir at h5; omega
    refine ⟨4 - min F 4, by omega, ?_⟩
    intro t ht1 ht2
    rcases le_or_lt 0 t with htpos | htneg
    · -- forward side: 0 ≤ t ≤ min F 4
      rcases Int.eq_ofNat_of_zero_le htpos with ⟨n, rfl⟩
      cases n with
      | zero => simpa using h0
      | succ n' =>
        have hn : n' < F := by omega
        have h := countWhile_good b side dx dy (b.length + 5) (x + dx) (y + dy) n' hn
        have e1 : x + dx + (n' : ℤ) * dx = x + ((n' : ℕ) + 1 : ℕ) * dx := by push_cast; ring
        have e2 : y + dy + (n' : ℤ) * dy = y + ((n' : ℕ) + 1 : ℕ) * dy := by push_cast; ring
        rw [e1, e2] at h
        exact_mod_cast h
    · -- backward side: -(4 - min F 4) ≤ t < 0
      obtain ⟨m, rfl⟩ : ∃ m : ℕ, t = -((m : ℤ) + 1) := ⟨(-t - 1).toNat, by omega⟩
      have hm : m < B := by omega
      have h := countWhile_good b side (-dx) (-dy) (b.length + 5) (x - dx) (y - dy) m hm
      have e1 : x - dx + (m : ℤ) * -dx = x + -((m : ℤ) + 1) * dx := by ring
      have e2 : y - dy + (m : ℤ) * -dy = y + -((m : ℤ) + 1) * dy := by ring
      rw [e1, e2] at h
      exact h
  · rintro ⟨a, ha, hall⟩
    have hFge : 4 - a ≤ countWhile b side dx dy (x + dx) (y + dy) (b.length + 5) := by
      refine countWhile_ge b side dx dy (b.length + 5) (4 - a) (x + dx) (y + dy) (by omega) ?_
      intro t ht
      have h := hall ((t : ℤ) + 1) (by omega) (by omega)
      have e1 : x + ((t : ℤ) + 1) * dx = x + dx + (t : ℤ) * dx := by ring
      have e2 : y + ((t : ℤ) + 1) * dy = y + dy + (t : ℤ) * dy := by ring
      rw [e1, e2] at h
      exact h
    have hBge : a ≤ countWhile b side (-dx) (-dy) (x - dx) (y - dy) (b.length + 5) := by
      refine countWhile_ge b side (-dx) (-dy) (b.length + 5) a (x - dx) (y - dy) (by omega) ?_
      intro t ht
      have h := hall (-((t : ℤ) + 1)) (by omega) (by omega)
      have e1 : x + -((t : ℤ) + 1) * dx = x - dx + (t : ℤ) * -dx := by ring
      have e2 : y + -((t : ℤ) + 1) * dy = y - dy + (t : ℤ) * -dy := by ring
      rw [e1, e2] at h
      exact h
    unfold count_dir
    omega

lemma pyCell_inrange (b : Board) (hsq : square b) (x y : ℤ)
    (hx0 : 0 ≤ x) (hx1 : x < (b.length : ℤ)) (hy0 : 0 ≤ y) (hy1 : y < (b.length : ℤ)) :
    pyCell b x y = some (cell b x y) := by
  have hy' : y.toNat < b.length := by omega
  have hrow : b[y.toNat]? = some b[y.toNat] := List.getElem?_eq_getElem hy'
  have hlen : b[y.toNat].length = b.length := hsq _ (List.getElem_mem hy')
  have hx' : x.toNat < b[y.toNat].length := by omega
  have hcol : b[y.toNat][x.toNat]? = some b[y.toNat][x.toNat] := List.getElem?_eq_getElem hx'
  simp [pyCell, pyGet, hx0, hy0, hrow, hcol, cell]

/-- C2: for every (square) board and every in-range `lastPos` whose cell is
occupied by a side, `check_five` returns true iff one of the 4 line directions
through that cell contains a contiguous run of at least 5 same-side stones
including the placed stone (`window5`). -/
theorem check_five_correct (b : Board) (x y : ℤ) (side : ℕ)
    (hsq : square b)
    (hx0 : 0 ≤ x) (hx1 : x < (b.length : ℤ)) (hy0 : 0 ≤ y) (hy1 : y < (b.length : ℤ))
    (hcell : cell b x y = side) (hside : side = 1 ∨ side = 2) :
    check_five b (some (x, y)) = some true ↔
      ∃ d ∈ dirs, window5 b side x y d.1 d.2 := by
  have hpc : pyCell b x y = some side := by
    rw [pyCell_inrange b hsq x y hx0 hx1 hy0 hy1, hcell]
  have hnot : ¬(side ≠ 1 ∧ side ≠ 2) := by rcases hside with h | h <;> simp [h]
  have h0 : goodCell b side x y := ⟨hx0, hx1, hy0, hy1, hcell⟩
  simp only [check_five, hpc]
  rw [if_neg hnot]
  simp only [Option.some.injEq, List.any_eq_true, decide_eq_true_eq]
  constructor
  · rintro ⟨d, hd, hcount⟩
    exact ⟨d, hd, (count_dir_iff b side x y d.1 d.2 h0).mp hcount⟩
  · rintro ⟨d, hd, hw⟩
    exact ⟨d, hd, (count_dir_iff b side x y d.1 d.2 h0).mpr hw⟩

/-- Witness for C2 at a concrete input: a 5×5 board with a black vertical five
in column 2, judged from the last stone at (2, 4). -/
theorem check_five_correct_witness :
    square [[0,0,1,0,0],[0,0,1,0,0],[0,0,1,0,0],[0,0,1,0,0],[0,0,1,0,0]] ∧
    cell [[0,0,1,0,0],[0,0,1,0,0],[0,0,1,0,0],[0,0,1,0,0],[0,0,1,0,0]] 2 4 = 1 ∧
    (check_five [[0,0,1,0,0],[0,0,1,0,0],[0,0,1,0,0],[0,0,1,0,0],[0,0,1,0,0]]
        (some (2, 4)) = some true ↔
      ∃ d ∈ dirs,
        window5 [[0,0,1,0,0],[0,0,1,0,0],[0,0,1,0,0],[0,0,1,0,0],[0,0,1,0,0]] 1 2 4 d.1 d.2) :=
  ⟨by decide, by decide,
    check_five_correct _ 2 4 1 (by decide) (by decide) (by decide) (by decide) (by decide)
      (by decide) (Or.inl rfl)⟩

/-- C3 counterexample: `check_five` does not return false on an out-of-range
`lastPos`.  On the 1×1 board `[[0]]`, `lastPos = (0, 1)` raises IndexError
(modelled as `none`); on a 5×5 board whose column 0 is all black,
`lastPos = (0, -1)` wraps around to row 4, reads that cell as the queried
stone, and returns true. -/
theorem check_five_out_of_range_cex :
    check_five [[0]] (some (0, 1)) = none ∧
    check_five [[1,0,0,0,0],[1,0,0,0,0],[1,0,0,0,0],[1,0,0,0,0],[1,0,0,0,0]]
      (some (0, -1)) = some true := by
  constructor
  · rfl
  · decide

/-- C3 amended: `check_five` returns false (without error) when `lastPos` is
`None`, and when `lastPos` names an in-range unoccupied cell of a square
board.  (Out-of-range positions are excluded: there the code raises or wraps,
see `check_five_out_of_range_cex`.) -/
theorem check_five_silent_false (b : Board) :
    check_five b none = some false ∧
    ∀ x y : ℤ, square b → 0 ≤ x → x < (b.length : ℤ) → 0 ≤ y → y < (b.length : ℤ) →
      cell b x y = 0 → check_five b (some (x, y)) = some false := by
  refine ⟨rfl, ?_⟩
  intro x y hsq hx0 hx1 hy0 hy1 hc
  have hpc : pyCell b x y = some 0 := by
    rw [pyCell_inrange b hsq x y hx0 hx1 hy0 hy1, hc]
  simp only [check_five, hpc]
  rw [if_pos (by decide)]

/-- Witness for C3's amended theorem on a concrete board. -/
theorem check_five_silent_false_witness :
    check_five [[0]] none = some false ∧ check_five [[0]] (some (0, 0)) = some false :=
  ⟨(check_five_silent_false [[0]]).1,
    (check_five_silent_false [[0]]).2 0 0 (by decide) (by decide) (by decide) (by decide)
      (by decide) (by decide)⟩

/-! ## rules.count_open_threes_fours

The regex line scan of `count_open_threes_fours`.  Line symbols are encoded as
numbers: `1` = 'X' (own stone), `2` = 'O' (enemy stone), `0` = '.' (empty).
A lookahead `findall` counts every position of the string at which the pattern
matches as a prefix of the remaining suffix. -/

/-- skills-side `cell_to_char`: own stone ↦ 'X' (1), enemy ↦ 'O' (2), empty ↦ '.' (0). -/
def cell_to_char (side enemy v : ℕ) : ℕ :=
  if v = side then 1 else if v = enemy then 2 else 0

/-- Does `pat` match at the head of `s`? -/
def matchesAt : List ℕ → List ℕ → Bool
  | [], _ => true
  | _ :: _, [] => false
  | p :: ps, c :: cs => decide (p = c) && matchesAt ps cs

/-- Number of positions of `s` (including the final empty suffix) at which
`pat` matches — overlapping lookahead counting, as in `re.findall(r"(?=...)")`. -/
def countMatches (pat : List ℕ) : List ℕ → ℕ
  | [] => if matchesAt pat [] then 1 else 0
  | c :: cs => (if matchesAt pat (c :: cs) then 1 else 0) + countMatches pat cs

/-- The scanned lines: all rows, all columns, both diagonal families (only
segments of length ≥ 5), exactly in the source's construction order. -/
def lines_of (b : Board) (side : ℕ) : List (List ℕ) :=
  let size := b.length
  let enemy := if side = 2 then 1 else 2
  let f : ℕ → ℕ → ℕ := fun x y => cell_to_char side enemy (cell b x y)
  let rows := (List.range size).map fun y => (List.range size).map fun x => f x y
  let cols := (List.range size).map fun x => (List.range size).map fun y => f x y
  -- main diagonals: k ∈ range(-(size-5), size-4), cells x = y - k
  let diag1 := ((List.range (2 * size - 9)).map fun t => (t : ℤ) - ((size : ℤ) - 5)).filterMap
    fun k =>
      let seg := (List.range size).filterMap fun (y : ℕ) =>
        let x := (y : ℤ) - k
        if 0 ≤ x ∧ x < (size : ℤ) then some (f x.toNat y) else none
      if 5 ≤ seg.length then some seg else none
  -- anti-diagonals: k ∈ range(4, 2*size-5), cells x = k - y
  let diag2 := ((List.range (2 * size - 9)).map fun t => (t : ℤ) + 4).filterMap
    fun k =>
      let seg := (List.range size).filterMap fun (y : ℕ) =>
        let x := k - (y : ℤ)
        if 0 ≤ x ∧ x < (size : ℤ) then some (f x.toNat y) else none
      if 5 ≤ seg.length then some seg else none
  rows ++ cols ++ diag1 ++ diag2

/-- Pattern `.XXXX.` — open four. -/
def pat_open_four : List ℕ := [0, 1, 1, 1, 1, 0]

/-- Pattern `.XXX.` — plain open three. -/
def pat_open_three_1 : List ℕ := [0, 1, 1, 1, 0]

/-- Pattern `.XX.X.` — broken open three. -/
def pat_open_three_2 : List ℕ := [0, 1, 1, 0, 1, 0]

/-- Pattern `.X.XX.` — broken open three. -/
def pat_open_three_3 : List ℕ := [0, 1, 0, 1, 1, 0]

/-- rules.count_open_threes_fours: `(open_three, open_four)` counts over all
lines, with overlapping matches counted. -/
def count_open_threes_fours (b : Board) (side : ℕ) : ℕ × ℕ :=
  let ls := lines_of b side
  let open_four := (ls.map fun s => countMatches pat_open_four s).sum
  let open_three := (ls.map fun s =>
    countMatches pat_open_three_1 s + countMatches pat_open_three_2 s +
      countMatches pat_open_three_3 s).sum
  (open_three, open_four)

/-! ## Data model (models.py / config.py)

`PlayerState` and `GameContext` follow `models.py`; the `players` dict
`{1: black, 2: white}` becomes the two fields `playerB`/`playerW` with the
accessors `get_player`/`set_player`.  The `skill_ui_state` dict holds the
transient flags; a missing key reads as falsy, so Bool fields with the same
defaults are observationally faithful.  Cooldown dicts become total functions
`ℕ → ℤ` (all reads in the source go through `.get(k, 0)`). -/

structure PlayerState where
  cooldowns : ℕ → ℤ
  frozen_once : Bool
  qinna_stance : Bool

structure SkillUI where
  target_select_active : Bool
  freeze_window_open : Bool
  rematch_dialog_open : Bool
  rematch_request_from : ℕ

structure Config where
  BOARD_SIZE : ℕ
  CDS : ℕ → ℤ
  LIBA_MIN_MOVES : ℕ
  LIBA_BASE : ℚ
  LIBA_CAP : ℚ
  STATE_PLAYING : ℕ
  STATE_GAMEOVER : ℕ

structure GameContext where
  board : Board
  turn_side : ℕ
  move_history : List (ℤ × ℤ × ℕ)
  state : ℕ
  winner : ℕ
  playerB : PlayerState
  playerW : PlayerState
  skill_ui_state : SkillUI
  messages : List String
  last_move_pos : Option (ℤ × ℤ)
  config : Config
  turn_stage : Option ℕ

/-- Lookup `players[side]` (side 1 = black, anything else = white; in the source the
dict holds exactly the keys 1 and 2). -/
def get_player (ctx : GameContext) (side : ℕ) : PlayerState :=
  if side = 1 then ctx.playerB else ctx.playerW

def set_player (ctx : GameContext) (side : ℕ) (p : PlayerState) : GameContext :=
  if side = 1 then { ctx with playerB := p } else { ctx with playerW := p }

/-- The other side: `SIDE_WHITE if side == SIDE_BLACK else SIDE_BLACK`. -/
def opponent (side : ℕ) : ℕ := if side = 1 then 2 else 1

/-- skills.push_message / engine.push_message: append to the rolling log. -/
def push_message (ctx : GameContext) (text : String) : GameContext :=
  { ctx with messages := ctx.messages ++ [text] }

/-! ## skills.py -/

/-- skills.highlight_enemy_stones: all `(x, y)` whose board cell holds the
enemy side, scanning `y` outer / `x` inner over `config.BOARD_SIZE`. -/
def highlight_enemy_stones (ctx : GameContext) : List (ℤ × ℤ) :=
  let size := ctx.config.BOARD_SIZE
  let enemy := opponent ctx.turn_side
  (List.range size).flatMap fun (y : ℕ) =>
    (List.range size).filterMap fun (x : ℕ) =>
      if cell ctx.board x y = enemy then some ((x : ℤ), (y : ℤ)) else none

/-- skills.can_cast: cooldown gate, then the skill-specific preconditions
(3 needs the freeze window, 4 needs the move-count minimum, 1 needs a target). -/
def can_cast (ctx : GameContext) (skill_id : ℕ) : Bool :=
  let p := get_player ctx ctx.turn_side
  if 0 < p.cooldowns skill_id then false
  else if skill_id = 3 then ctx.skill_ui_state.freeze_window_open
  else if skill_id = 4 then
    if ctx.move_history.length < ctx.config.LIBA_MIN_MOVES then false else true
  else if skill_id = 1 then decide (highlight_enemy_stones ctx ≠ [])
  else true

/-- skills.check_qinna_intercept: if the caster's opponent holds the stance,
consume it (set it to False) and report the interception. -/
def check_qinna_intercept (ctx : GameContext) (caster_side : ℕ) : GameContext × Bool :=
  let opp := opponent caster_side
  let ps := get_player ctx opp
  if ps.qinna_stance then (set_player ctx opp { ps with qinna_stance := false }, true)
  else (ctx, false)

/-- skills.set_cooldown: `cds[skill_id] = max(0, int(cd_val))` for the current side. -/
def set_cooldown (ctx : GameContext) (skill_id : ℕ) (cd_val : ℤ) : GameContext :=
  let p := get_player ctx ctx.turn_side
  set_player ctx ctx.turn_side
    { p with cooldowns := fun k => if k = skill_id then max 0 cd_val else p.cooldowns k }

/-- skills.on_turn_begin_cooldowns: decrement every cooldown of the current
side by 1 (floor 0) and clear that side's qinna stance. -/
def on_turn_begin_cooldowns (ctx : GameContext) : GameContext :=
  let p := get_player ctx ctx.turn_side
  set_player ctx ctx.turn_side
    { p with cooldowns := fun k => max 0 (p.cooldowns k - 1), qinna_stance := false }

/-- skills.mark_opponent_frozen_next_turn. -/
def mark_opponent_frozen_next_turn (ctx : GameContext) : GameContext :=
  let opp := opponent ctx.turn_side
  set_player ctx opp { get_player ctx opp with frozen_once := true }

/-- skills.clear_frozen_flag_if_consumed. -/
def clear_frozen_flag_if_consumed (ctx : GameContext) : GameContext :=
  set_player ctx ctx.turn_side { get_player ctx ctx.turn_side with frozen_once := false }

/-- skills.cast_feisha: open target selection (there is always a target when
reached through `try_cast`, but the inner guard is kept from the source). -/
def cast_feisha (ctx : GameContext) : GameContext :=
  if highlight_enemy_stones ctx = [] then push_message ctx "飞沙走石：没有可选目标。"
  else
    push_message
      { ctx with skill_ui_state := { ctx.skill_ui_state with target_select_active := true } }
      "飞沙走石：请选择要移除的对方棋子。"

/-- skills.cast_jingru: freeze the opponent's next turn. -/
def cast_jingru (ctx : GameContext) : GameContext :=
  push_message (mark_opponent_frozen_next_turn ctx) "静如止水：对手下回合将被冻结。"

/-- skills.cast_shuidi: counter-freeze; only meaningful while the freeze
window is open. -/
def cast_shuidi (ctx : GameContext) : GameContext :=
  if ¬ ctx.skill_ui_state.freeze_window_open then
    push_message ctx "水滴石穿只能在被冻结回合开始时使用。"
  else
    let ctx1 := clear_frozen_flag_if_consumed ctx
    push_message
      { ctx1 with skill_ui_state := { ctx1.skill_ui_state with freeze_window_open := false } }
      "水滴石穿：已解除本次冻结，可正常落子。"

/-- skills.compute_mighty_power_success:
`max(0.0, min(cap, base + 0.02*open_three + 0.03*open_four))`, floats as ℚ. -/
def compute_mighty_power_success (ctx : GameContext) : ℚ :=
  let base := ctx.config.LIBA_BASE
  let cap := ctx.config.LIBA_CAP
  let stats := count_open_threes_fours ctx.board ctx.turn_side
  let bonus := (2 : ℚ) / 100 * stats.1 + (3 : ℚ) / 100 * stats.2
  max 0 (min cap (base + bonus))

/-- skills.cast_libashanxi with the uniform draw `roll` passed explicitly. -/
def cast_libashanxi (ctx : GameContext) (roll : ℚ) : GameContext :=
  let total_moves := ctx.move_history.length
  let min_moves := ctx.config.LIBA_MIN_MOVES
  if total_moves < min_moves then push_message ctx "力拔山兮前置未达成。"
  else
    let prob := compute_mighty_power_success ctx
    if roll < prob then
      push_message
        { ctx with winner := ctx.turn_side, state := ctx.config.STATE_GAMEOVER }
        "力拔山兮成功！"
    else push_message ctx "力拔山兮未能成功。"

/-- skills.cast_qinna (via set_qinna_stance): arm the caster's stance. -/
def cast_qinna (ctx : GameContext) : GameContext :=
  push_message
    (set_player ctx ctx.turn_side { get_player ctx ctx.turn_side with qinna_stance := true })
    "擒拿：已架势，准备拦截对手下回合的首次技能。"

/-- skills.cast_dongshanzaoqi: open the rematch dialog. -/
def cast_dongshanzaoqi (ctx : GameContext) : GameContext :=
  push_message
    { ctx with skill_ui_state :=
        { ctx.skill_ui_state with rematch_dialog_open := true,
                                  rematch_request_from := ctx.turn_side } }
    "东山再起：已向对手发起重开请求。"

/-- The effect dispatch inside skills.try_cast (the if/elif chain over the
six skill ids; callers guarantee `1 ≤ skill_id ≤ 6`). -/
def cast_effect (ctx : GameContext) (skill_id : ℕ) (roll : ℚ) : GameContext :=
  if skill_id = 1 then cast_feisha ctx
  else if skill_id = 2 then cast_jingru ctx
  else if skill_id = 3 then cast_shuidi ctx
  else if skill_id = 4 then cast_libashanxi ctx roll
  else if skill_id = 5 then cast_qinna ctx
  else cast_dongshanzaoqi ctx

/-- skills.try_cast: reject on `can_cast` failure; otherwise resolve the
qinna interception (stance consumed, cooldown still charged, no effect);
otherwise run the effect and charge the cooldown.  An unknown skill id
returns False before the cooldown line, as in the source. -/
def try_cast (ctx : GameContext) (skill_id : ℕ) (roll : ℚ) : GameContext × Bool :=
  if ¬ can_cast ctx skill_id then (push_message ctx "技能不可用或冷却中。", false)
  else
    let r := check_qinna_intercept ctx ctx.turn_side
    if r.2 then
      (push_message (set_cooldown r.1 skill_id (r.1.config.CDS skill_id))
        "对手的擒拿发动：你的技能被拦截！", false)
    else if 1 ≤ skill_id ∧ skill_id ≤ 6 then
      let ctx2 := cast_effect r.1 skill_id roll
      (set_cooldown ctx2 skill_id (ctx2.config.CDS skill_id), true)
    else (r.1, false)

/-! ## engine.py -/

/-- Write `board[y][x] = v` for an in-range write (the only writes the engine makes
come from validated coordinates or history entries recorded by them). -/
def boardSet (b : Board) (x y : ℤ) (v : ℕ) : Board :=
  b.set y.toNat ((b[y.toNat]?.getD []).set x.toNat v)

/-- engine.maybe_switch_turn: hand the turn to the other side at BEGIN. -/
def maybe_switch_turn (ctx : GameContext) : GameContext :=
  { ctx with turn_side := opponent ctx.turn_side, turn_stage := some 0 }

/-- engine.try_place_stone: reject out-of-range or occupied cells without any
state change; otherwise write the stone, record last_move_pos, append history. -/
def try_place_stone (ctx : GameContext) (x y : ℤ) : GameContext × Bool :=
  let size := ctx.config.BOARD_SIZE
  if ¬ (0 ≤ x ∧ x < (size : ℤ) ∧ 0 ≤ y ∧ y < (size : ℤ)) then (ctx, false)
  else if cell ctx.board x y ≠ 0 then (ctx, false)
  else
    let side := ctx.turn_side
    ({ ctx with board := boardSet ctx.board x y side,
                last_move_pos := some (x, y),
                move_history := ctx.move_history ++ [(x, y, side)] }, true)

/-- engine.undo_last_move: pop the newest history entry, clear its cell,
recompute last_move_pos from the new tail (or None); no-op on empty history. -/
def undo_last_move (ctx : GameContext) : GameContext × Bool :=
  match ctx.move_history.getLast? with
  | none => (ctx, false)
  | some (x, y, _s) =>
    let hist := ctx.move_history.dropLast
    let lmp : Option (ℤ × ℤ) :=
      match hist.getLast? with
      | some (a, bb, _) => some (a, bb)
      | none => none
    (push_message
      { ctx with move_history := hist, board := boardSet ctx.board x y 0,
                 last_move_pos := lmp }
      "已悔棋一步。", true)

/-- engine.consume_freeze_skip_turn: with the freeze window open, consume the
frozen flag, close the window, and pass the turn (skip). -/
def consume_freeze_skip_turn (ctx : GameContext) : GameContext :=
  if ¬ ctx.skill_ui_state.freeze_window_open then ctx
  else
    let p := get_player ctx ctx.turn_side
    let ctx1 := set_player ctx ctx.turn_side { p with frozen_once := false }
    let ctx2 :=
      { ctx1 with skill_ui_state := { ctx1.skill_ui_state with freeze_window_open := false } }
    maybe_switch_turn (push_message ctx2 "被冻结：已跳过本回合。")

/-- engine.maybe_start_turn (the BEGIN stage step): run the cooldown
decrement, open the freeze window iff the current side is frozen, close any
leftover rematch dialog, and advance to the SKILL stage (= 1). -/
def maybe_start_turn (ctx : GameContext) : GameContext :=
  if ctx.turn_stage ≠ some 0 then ctx
  else
    let ctx1 := on_turn_begin_cooldowns ctx
    let p := get_player ctx1 ctx1.turn_side
    let ctx2 :=
      { ctx1 with skill_ui_state :=
          { ctx1.skill_ui_state with freeze_window_open := p.frozen_once,
                                     rematch_dialog_open := false } }
    { ctx2 with turn_stage := some 1 }

/-- engine.handle_keydown's "has this side already placed this turn" test:
history empty, or its last entry's side differs from the current side. -/
def not_moved_this_turn (ctx : GameContext) : Bool :=
  match ctx.move_history.getLast? with
  | none => true
  | some (_, _, s) => decide (s ≠ ctx.turn_side)

/-- engine.handle_keydown, skill-key branch (keys 1–6 map to skill ids 1–6;
`try_cast_skill` is a thin wrapper around `skills.try_cast`): cast in the
SKILL stage (= some 1), or in the PLACE stage (= some 2) before placing;
otherwise key 3 is allowed while the freeze window is open. -/
def handle_skill_key (ctx : GameContext) (skill_id : ℕ) (roll : ℚ) : GameContext :=
  if ctx.turn_stage = some 1 ∨ (ctx.turn_stage = some 2 ∧ not_moved_this_turn ctx) then
    (try_cast ctx skill_id roll).1
  else if skill_id = 3 ∧ ctx.skill_ui_state.freeze_window_open then
    (try_cast ctx 3 roll).1
  else ctx

/-! ## Helper lemmas on the player accessors -/

lemma get_set_player_same (ctx : GameContext) (s : ℕ) (p : PlayerState) :
    get_player (set_player ctx s p) s = p := by
  by_cases h : s = 1 <;> simp [get_player, set_player, h]

lemma get_set_player_opp (ctx : GameContext) (s : ℕ) (p : PlayerState) :
    get_player (set_player ctx s p) (opponent s) = get_player ctx (opponent s) := by
  by_cases h : s = 1 <;> simp [get_player, set_player, opponent, h]

lemma get_set_player_opp' (ctx : GameContext) (s : ℕ) (p : PlayerState) :
    get_player (set_player ctx (opponent s) p) s = get_player ctx s := by
  by_cases h : s = 1 <;> simp [get_player, set_player, opponent, h]

/-! ## Concrete contexts used by witnesses and counterexamples -/

/-- The configured cooldown table (config.CDS). -/
def cds0 : ℕ → ℤ := fun k =>
  if k = 1 then 6 else if k = 2 then 8 else if k = 3 then 3
  else if k = 4 then 20 else if k = 5 then 5 else if k = 6 then 12 else 0

/-- The default configuration from config.get_config (floats as rationals:
LIBA_BASE = 0.10, LIBA_CAP = 0.18). -/
def cfg0 : Config :=
  { BOARD_SIZE := 15, CDS := cds0, LIBA_MIN_MOVES := 20,
    LIBA_BASE := 1/10, LIBA_CAP := 9/50, STATE_PLAYING := 1, STATE_GAMEOVER := 2 }

/-- A player with every cooldown already at 0 and no one-shot flags. -/
def freshPlayer : PlayerState :=
  { cooldowns := fun _ => 0, frozen_once := false, qinna_stance := false }

def sui0 : SkillUI :=
  { target_select_active := false, freeze_window_open := false,
    rematch_dialog_open := false, rematch_request_from := 0 }

def emptyBoard15 : Board := List.replicate 15 (List.replicate 15 0)

/-- A mid-game-like context: black to move in the PLACE stage, empty board,
all cooldowns 0. -/
def ctx0 : GameContext :=
  { board := emptyBoard15, turn_side := 1, move_history := [], state := 1, winner := 0,
    playerB := freshPlayer, playerW := freshPlayer, skill_ui_state := sui0,
    messages := [], last_move_pos := none, config := cfg0, turn_stage := some 2 }

/-! ## C6 — illegal placements are ignored -/

/-- C6: placing on an out-of-range coordinate or an occupied cell returns
failure and leaves the whole context (board, history, last-move position,
stage, …) unchanged. -/
theorem try_place_stone_rejects (ctx : GameContext) (x y : ℤ)
    (h : ¬ (0 ≤ x ∧ x < (ctx.config.BOARD_SIZE : ℤ) ∧ 0 ≤ y ∧ y < (ctx.config.BOARD_SIZE : ℤ))
         ∨ cell ctx.board x y ≠ 0) :
    try_place_stone ctx x y = (ctx, false) := by
  unfold try_place_stone
  by_cases hr : 0 ≤ x ∧ x < (ctx.config.BOARD_SIZE : ℤ) ∧ 0 ≤ y ∧ y < (ctx.config.BOARD_SIZE : ℤ)
  · rcases h with h | h
    · exact absurd hr h
    · rw [if_neg (not_not_intro hr), if_pos h]
  · rw [if_pos hr]

/-- Witness for C6: an out-of-range placement and an occupied-cell placement,
both rejected without any state change. -/
theorem try_place_stone_rejects_witness :
    try_place_stone ctx0 20 0 = (ctx0, false) ∧
    try_place_stone { ctx0 with board := boardSet emptyBoard15 7 7 1 } 7 7 =
      ({ ctx0 with board := boardSet emptyBoard15 7 7 1 }, false) :=
  ⟨try_place_stone_rejects ctx0 20 0 (Or.inl (by decide)),
   try_place_stone_rejects { ctx0 with board := boardSet emptyBoard15 7 7 1 } 7 7
     (Or.inr (by decide))⟩

/-! ## C9 — undo semantics -/

/-- C9: with empty history undo is a strict no-op returning failure; with
non-empty history it removes exactly the newest entry, clears that entry's
cell, recomputes the last-move position from the new tail (or none), appends
one log message and returns success — the player records (cooldowns,
frozen/stance flags) are untouched, as shown by the record update. -/
theorem undo_last_move_spec (ctx : GameContext) :
    (ctx.move_history = [] → undo_last_move ctx = (ctx, false)) ∧
    ∀ (x y : ℤ) (s : ℕ), ctx.move_history.getLast? = some (x, y, s) →
      undo_last_move ctx =
        (push_message
          { ctx with move_history := ctx.move_history.dropLast,
                     board := boardSet ctx.board x y 0,
                     last_move_pos :=
                       match ctx.move_history.dropLast.getLast? with
                       | some (a, bb, _) => some (a, bb)
                       | none => none }
          "已悔棋一步。", true) := by
  constructor
  · intro h
    unfold undo_last_move
    rw [h]
    rfl
  · intro x y s h
    unfold undo_last_move
    rw [h]

/-- Witness for C9: undo on a one-move history and on the empty history. -/
theorem undo_last_move_spec_witness :
    undo_last_move { ctx0 with move_history := [(7, 7, 1)],
                               board := boardSet emptyBoard15 7 7 1,
                               last_move_pos := some (7, 7) } =
      (push_message
        { ctx0 with move_history := ([(7, 7, 1)] : List (ℤ × ℤ × ℕ)).dropLast,
                    board := boardSet (boardSet emptyBoard15 7 7 1) 7 7 0,
                    last_move_pos := none }
        "已悔棋一步。", true) ∧
    undo_last_move ctx0 = (ctx0, false) := by
  constructor
  · have h := (undo_last_move_spec
      { ctx0 with move_history := [(7, 7, 1)], board := boardSet emptyBoard15 7 7 1,
                  last_move_pos := some (7, 7) }).2 7 7 1 rfl
    exact h
  · exact (undo_last_move_spec ctx0).1 rfl

/-! ## C7 — mighty-power is unreachable below the move minimum -/

/-- C7: with fewer recorded moves than LIBA_MIN_MOVES, a cast attempt of
skill 4 (mighty-power) is rejected for every random roll: the only change is
one informational message — no winner, no game-over, no cooldown charge. -/
theorem liba_rejected_below_min (ctx : GameContext) (roll : ℚ)
    (h : ctx.move_history.length < ctx.config.LIBA_MIN_MOVES) :
    try_cast ctx 4 roll = (push_message ctx "技能不可用或冷却中。", false) := by
  have hcc : can_cast ctx 4 = false := by
    unfold can_cast
    by_cases hcd : 0 < (get_player ctx ctx.turn_side).cooldowns 4
    · simp [hcd]
    · simp [hcd, h]
  unfold try_cast
  rw [hcc]
  simp

/-- Witness for C7: 0 recorded moves < 20 with the default configuration. -/
theorem liba_rejected_below_min_witness :
    try_cast ctx0 4 0 = (push_message ctx0 "技能不可用或冷却中。", false) :=
  liba_rejected_below_min ctx0 0 (by decide)

/-! ## C1 — interception semantics -/

/-- The exact reduct of try_cast when the cast is legal but intercepted:
the opponent's stance is consumed, the caster's cooldown is charged, one
message is logged, and nothing else happens. -/
lemma try_cast_intercepted_eq (ctx : GameContext) (skill_id : ℕ) (roll : ℚ)
    (hq : (get_player ctx (opponent ctx.turn_side)).qinna_stance = true)
    (hcc : can_cast ctx skill_id = true) :
    try_cast ctx skill_id roll =
      (push_message
        (set_cooldown
          (set_player ctx (opponent ctx.turn_side)
            { get_player ctx (opponent ctx.turn_side) with qinna_stance := false })
          skill_id (ctx.config.CDS skill_id))
        "对手的擒拿发动：你的技能被拦截！", false) := by
  by_cases h1 : ctx.turn_side = 1 <;>
    (simp [opponent, get_player, h1] at hq;
     simp [try_cast, check_qinna_intercept, hcc, hq, opponent, get_player, set_player,
       set_cooldown, push_message, h1])

/-- Field-by-field description of an intercepted cast (shared helper). -/
lemma intercepted_cast_fields (ctx : GameContext) (skill_id : ℕ) (roll : ℚ)
    (hq : (get_player ctx (opponent ctx.turn_side)).qinna_stance = true)
    (hcc : can_cast ctx skill_id = true)
    (hcds : 0 ≤ ctx.config.CDS skill_id) :
    (try_cast ctx skill_id roll).2 = false ∧
    (get_player (try_cast ctx skill_id roll).1 (opponent ctx.turn_side)).qinna_stance = false ∧
    (get_player (try_cast ctx skill_id roll).1 ctx.turn_side).cooldowns skill_id =
      ctx.config.CDS skill_id ∧
    (get_player (try_cast ctx skill_id roll).1 ctx.turn_side).cooldowns =
      (fun k => if k = skill_id then ctx.config.CDS skill_id
                else (get_player ctx ctx.turn_side).cooldowns k) ∧
    (get_player (try_cast ctx skill_id roll).1 ctx.turn_side).frozen_once =
      (get_player ctx ctx.turn_side).frozen_once ∧
    (get_player (try_cast ctx skill_id roll).1 (opponent ctx.turn_side)).frozen_once =
      (get_player ctx (opponent ctx.turn_side)).frozen_once ∧
    (get_player (try_cast ctx skill_id roll).1 (opponent ctx.turn_side)).cooldowns =
      (get_player ctx (opponent ctx.turn_side)).cooldowns ∧
    (try_cast ctx skill_id roll).1.board = ctx.board ∧
    (try_cast ctx skill_id roll).1.move_history = ctx.move_history ∧
    (try_cast ctx skill_id roll).1.winner = ctx.winner ∧
    (try_cast ctx skill_id roll).1.state = ctx.state ∧
    (try_cast ctx skill_id roll).1.skill_ui_state = ctx.skill_ui_state ∧
    (try_cast ctx skill_id roll).1.turn_side = ctx.turn_side ∧
    (try_cast ctx skill_id roll).1.messages =
      ctx.messages ++ ["对手的擒拿发动：你的技能被拦截！"] := by
  rw [try_cast_intercepted_eq ctx skill_id roll hq hcc]
  by_cases h1 : ctx.turn_side = 1 <;>
    simp [push_message, set_cooldown, set_player, get_player, opponent, h1,
      max_eq_right hcds]

/-- C1: a skill cast that passes its cooldown/precondition checks while the
opponent holds an active interception stance consumes the stance exactly once
(it becomes false), never executes the skill's effect (every game field other
than the opponent's stance, the caster's cooldown entry and the message log
is unchanged), still charges the caster's configured cooldown, and reports
failure. -/
theorem intercepted_cast_spec (ctx : GameContext) (skill_id : ℕ) (roll : ℚ)
    (hq : (get_player ctx (opponent ctx.turn_side)).qinna_stance = true)
    (hcc : can_cast ctx skill_id = true)
    (hcds : 0 ≤ ctx.config.CDS skill_id) :
    (try_cast ctx skill_id roll).2 = false ∧
    (get_player (try_cast ctx skill_id roll).1 (opponent ctx.turn_side)).qinna_stance = false ∧
    (get_player (try_cast ctx skill_id roll).1 ctx.turn_side).cooldowns skill_id =
      ctx.config.CDS skill_id ∧
    (get_player (try_cast ctx skill_id roll).1 ctx.turn_side).cooldowns =
      (fun k => if k = skill_id then ctx.config.CDS skill_id
                else (get_player ctx ctx.turn_side).cooldowns k) ∧
    (get_player (try_cast ctx skill_id roll).1 ctx.turn_side).frozen_once =
      (get_player ctx ctx.turn_side).frozen_once ∧
    (get_player (try_cast ctx skill_id roll).1 (opponent ctx.turn_side)).frozen_once =
      (get_player ctx (opponent ctx.turn_side)).frozen_once ∧
    (get_player (try_cast ctx skill_id roll).1 (opponent ctx.turn_side)).cooldowns =
      (get_player ctx (opponent ctx.turn_side)).cooldowns ∧
    (try_cast ctx skill_id roll).1.board = ctx.board ∧
    (try_cast ctx skill_id roll).1.move_history = ctx.move_history ∧
    (try_cast ctx skill_id roll).1.winner = ctx.winner ∧
    (try_cast ctx skill_id roll).1.state = ctx.state ∧
    (try_cast ctx skill_id roll).1.skill_ui_state = ctx.skill_ui_state ∧
    (try_cast ctx skill_id roll).1.turn_side = ctx.turn_side ∧
    (try_cast ctx skill_id roll).1.messages =
      ctx.messages ++ ["对手的擒拿发动：你的技能被拦截！"] :=
  intercepted_cast_fields ctx skill_id roll hq hcc hcds

/-- A context in which white holds the interception stance and black casts. -/
def ctxI : GameContext := { ctx0 with playerW := { freshPlayer with qinna_stance := true } }

/-- Witness for C1: black casts qinna (skill 5, castable: cooldown 0) into
white's armed stance. -/
theorem intercepted_cast_spec_witness :
    (try_cast ctxI 5 0).2 = false ∧
    (get_player (try_cast ctxI 5 0).1 (opponent ctxI.turn_side)).qinna_stance = false ∧
    (get_player (try_cast ctxI 5 0).1 ctxI.turn_side).cooldowns 5 = ctxI.config.CDS 5 ∧
    (get_player (try_cast ctxI 5 0).1 ctxI.turn_side).cooldowns =
      (fun k => if k = 5 then ctxI.config.CDS 5
                else (get_player ctxI ctxI.turn_side).cooldowns k) ∧
    (get_player (try_cast ctxI 5 0).1 ctxI.turn_side).frozen_once =
      (get_player ctxI ctxI.turn_side).frozen_once ∧
    (get_player (try_cast ctxI 5 0).1 (opponent ctxI.turn_side)).frozen_once =
      (get_player ctxI (opponent ctxI.turn_side)).frozen_once ∧
    (get_player (try_cast ctxI 5 0).1 (opponent ctxI.turn_side)).cooldowns =
      (get_player ctxI (opponent ctxI.turn_side)).cooldowns ∧
    (try_cast ctxI 5 0).1.board = ctxI.board ∧
    (try_cast ctxI 5 0).1.move_history = ctxI.move_history ∧
    (try_cast ctxI 5 0).1.winner = ctxI.winner ∧
    (try_cast ctxI 5 0).1.state = ctxI.state ∧
    (try_cast ctxI 5 0).1.skill_ui_state = ctxI.skill_ui_state ∧
    (try_cast ctxI 5 0).1.turn_side = ctxI.turn_side ∧
    (try_cast ctxI 5 0).1.messages =
      ctxI.messages ++ ["对手的擒拿发动：你的技能被拦截！"] := by
  have h := intercepted_cast_spec ctxI 5 0 (by decide) (by decide) (by decide)
  exact ⟨h.1, h.2.1, h.2.2.1, h.2.2.2.1, h.2.2.2.2.1, h.2.2.2.2.2.1, h.2.2.2.2.2.2.1,
    h.2.2.2.2.2.2.2.1, h.2.2.2.2.2.2.2.2.1, h.2.2.2.2.2.2.2.2.2.1,
    h.2.2.2.2.2.2.2.2.2.2.1, h.2.2.2.2.2.2.2.2.2.2.2.1,
    h.2.2.2.2.2.2.2.2.2.2.2.2.1, h.2.2.2.2.2.2.2.2.2.2.2.2.2⟩

/-! ## C10 — counter-freeze can be intercepted and wasted -/

/-- C10: while the caster is frozen (window open) and the opponent holds the
interception stance, casting counter-freeze (skill 3) consumes the opponent's
stance and charges skill 3's configured cooldown to the frozen caster, yet the
caster's frozen flag stays set and the freeze window stays open; with the
cooldown now positive the caster cannot recast skill 3 and can only skip. -/
theorem shuidi_intercepted_wasted (ctx : GameContext) (roll : ℚ)
    (hwin : ctx.skill_ui_state.freeze_window_open = true)
    (hq : (get_player ctx (opponent ctx.turn_side)).qinna_stance = true)
    (hcd : ¬ 0 < (get_player ctx ctx.turn_side).cooldowns 3)
    (hfz : (get_player ctx ctx.turn_side).frozen_once = true)
    (hcds : 0 < ctx.config.CDS 3) :
    (try_cast ctx 3 roll).2 = false ∧
    (get_player (try_cast ctx 3 roll).1 (opponent ctx.turn_side)).qinna_stance = false ∧
    (get_player (try_cast ctx 3 roll).1 ctx.turn_side).cooldowns 3 = ctx.config.CDS 3 ∧
    (get_player (try_cast ctx 3 roll).1 ctx.turn_side).frozen_once = true ∧
    (try_cast ctx 3 roll).1.skill_ui_state.freeze_window_open = true ∧
    can_cast (try_cast ctx 3 roll).1 3 = false := by
  have hcc : can_cast ctx 3 = true := by
    unfold can_cast
    simp [hcd, hwin]
  obtain ⟨hA, hB, hC, hD, hE, hF, hG, hH, hI, hJ, hK, hL, hM, hN⟩ :=
    intercepted_cast_fields ctx 3 roll hq hcc (le_of_lt hcds)
  refine ⟨hA, hB, hC, ?_, ?_, ?_⟩
  · rw [hE, hfz]
  · rw [hL]
    exact hwin
  · unfold can_cast
    rw [hM]
    simp [hD, hcds]

/-- A frozen black player facing white's armed stance, all cooldowns 0. -/
def ctxQ : GameContext :=
  { ctx0 with playerB := { freshPlayer with frozen_once := true },
              playerW := { freshPlayer with qinna_stance := true },
              skill_ui_state := { sui0 with freeze_window_open := true },
              turn_stage := some 1 }

/-- Witness for C10 at the concrete frozen-and-intercepted context. -/
theorem shuidi_intercepted_wasted_witness :
    (try_cast ctxQ 3 0).2 = false ∧
    (get_player (try_cast ctxQ 3 0).1 (opponent ctxQ.turn_side)).qinna_stance = false ∧
    (get_player (try_cast ctxQ 3 0).1 ctxQ.turn_side).cooldowns 3 = ctxQ.config.CDS 3 ∧
    (get_player (try_cast ctxQ 3 0).1 ctxQ.turn_side).frozen_once = true ∧
    (try_cast ctxQ 3 0).1.skill_ui_state.freeze_window_open = true ∧
    can_cast (try_cast ctxQ 3 0).1 3 = false :=
  shuidi_intercepted_wasted ctxQ 0 (by decide) (by decide) (by decide) (by decide) (by decide)

/-! ## C5 — cooldown bookkeeping discipline -/

/-- No skill effect touches any cooldown table, the turn side, or the config. -/
lemma cast_effect_preserves (ctx : GameContext) (sid : ℕ) (roll : ℚ) :
    (cast_effect ctx sid roll).playerB.cooldowns = ctx.playerB.cooldowns ∧
    (cast_effect ctx sid roll).playerW.cooldowns = ctx.playerW.cooldowns ∧
    (cast_effect ctx sid roll).turn_side = ctx.turn_side ∧
    (cast_effect ctx sid roll).config = ctx.config := by
  unfold cast_effect
  split_ifs with h1 h2 h3 h4 h5
  · unfold cast_feisha push_message
    split_ifs <;> simp
  · unfold cast_jingru mark_opponent_frozen_next_turn push_message set_player get_player opponent
    split_ifs <;> simp
  · unfold cast_shuidi clear_frozen_flag_if_consumed push_message set_player get_player
    split_ifs <;> simp
  · unfold cast_libashanxi push_message
    dsimp only
    split_ifs <;> simp
  · unfold cast_qinna push_message set_player get_player
    split_ifs <;> simp
  · unfold cast_dongshanzaoqi push_message
    simp

/-- try_cast's full cooldown behaviour: the caster's table is rewritten at
exactly the cast skill id — and only when the cast passed `can_cast` and was
either intercepted or a real skill — and the opponent's table is never
touched. -/
lemma try_cast_cooldowns (ctx : GameContext) (sid : ℕ) (roll : ℚ) :
    ((get_player (try_cast ctx sid roll).1 ctx.turn_side).cooldowns =
      if can_cast ctx sid = true ∧
          ((get_player ctx (opponent ctx.turn_side)).qinna_stance = true ∨ (1 ≤ sid ∧ sid ≤ 6))
        then fun k => if k = sid then max 0 (ctx.config.CDS sid)
                      else (get_player ctx ctx.turn_side).cooldowns k
        else (get_player ctx ctx.turn_side).cooldowns) ∧
    (get_player (try_cast ctx sid roll).1 (opponent ctx.turn_side)).cooldowns =
      (get_player ctx (opponent ctx.turn_side)).cooldowns := by
  by_cases hcc : can_cast ctx sid = true
  · by_cases hq : (get_player ctx (opponent ctx.turn_side)).qinna_stance = true
    · rw [try_cast_intercepted_eq ctx sid roll hq hcc, if_pos ⟨hcc, Or.inl hq⟩]
      constructor
      · by_cases h1 : ctx.turn_side = 1 <;>
          simp [push_message, set_cooldown, set_player, get_player, opponent, h1]
      · by_cases h1 : ctx.turn_side = 1 <;>
          simp [push_message, set_cooldown, set_player, get_player, opponent, h1]
    · have hqf : (get_player ctx (opponent ctx.turn_side)).qinna_stance = false := by
        revert hq; cases (get_player ctx (opponent ctx.turn_side)).qinna_stance <;> simp
      by_cases hv : 1 ≤ sid ∧ sid ≤ 6
      · obtain ⟨pB, pW, pts, pcfg⟩ := cast_effect_preserves ctx sid roll
        rw [if_pos ⟨hcc, Or.inr hv⟩]
        have hred : (try_cast ctx sid roll).1 =
            set_cooldown (cast_effect ctx sid roll) sid
              ((cast_effect ctx sid roll).config.CDS sid) := by
          simp [try_cast, hcc, check_qinna_intercept, hqf, hv]
        rw [hred]
        constructor
        · by_cases h1 : ctx.turn_side = 1 <;>
            simp [set_cooldown, set_player, get_player, opponent, pts, pcfg, pB, pW, h1]
        · by_cases h1 : ctx.turn_side = 1 <;>
            simp [set_cooldown, set_player, get_player, opponent, pts, pcfg, pB, pW, h1]
      · rw [if_neg fun h => h.2.elim hq hv]
        have hred : (try_cast ctx sid roll).1 = ctx := by
          simp [try_cast, hcc, check_qinna_intercept, hqf, hv]
        rw [hred]
        exact ⟨rfl, rfl⟩
  · rw [if_neg fun h => hcc h.1]
    have hccf : can_cast ctx sid = false := by
      revert hcc; cases can_cast ctx sid <;> simp
    have hred : (try_cast ctx sid roll).1 = push_message ctx "技能不可用或冷却中。" := by
      simp [try_cast, hccf]
    rw [hred]
    exact ⟨rfl, rfl⟩

/-- C5: cooldown bookkeeping happens at exactly two places.  At a side's own
BEGIN step every one of that side's cooldowns drops by exactly 1 (floor 0) and
its stance is cleared, the opponent untouched (and the BEGIN step
`maybe_start_turn` changes players exactly through `on_turn_begin_cooldowns`,
only when the stage is BEGIN); a cast attempt rewrites the caster's table at
exactly the attempted skill — to the configured value — precisely when the
cast passed `can_cast` and was executed or intercepted; placements, undo and
the freeze-skip never touch any cooldown. -/
theorem cooldown_discipline (ctx : GameContext) (k sid : ℕ) (roll : ℚ) (x y : ℤ) :
    (get_player (on_turn_begin_cooldowns ctx) ctx.turn_side).cooldowns k =
      max 0 ((get_player ctx ctx.turn_side).cooldowns k - 1) ∧
    (get_player (on_turn_begin_cooldowns ctx) ctx.turn_side).qinna_stance = false ∧
    get_player (on_turn_begin_cooldowns ctx) (opponent ctx.turn_side) =
      get_player ctx (opponent ctx.turn_side) ∧
    (maybe_start_turn ctx).playerB =
      (if ctx.turn_stage = some 0 then (on_turn_begin_cooldowns ctx).playerB
       else ctx.playerB) ∧
    (maybe_start_turn ctx).playerW =
      (if ctx.turn_stage = some 0 then (on_turn_begin_cooldowns ctx).playerW
       else ctx.playerW) ∧
    ((get_player (try_cast ctx sid roll).1 ctx.turn_side).cooldowns =
      if can_cast ctx sid = true ∧
          ((get_player ctx (opponent ctx.turn_side)).qinna_stance = true ∨ (1 ≤ sid ∧ sid ≤ 6))
        then fun k' => if k' = sid then max 0 (ctx.config.CDS sid)
                       else (get_player ctx ctx.turn_side).cooldowns k'
        else (get_player ctx ctx.turn_side).cooldowns) ∧
    (get_player (try_cast ctx sid roll).1 (opponent ctx.turn_side)).cooldowns =
      (get_player ctx (opponent ctx.turn_side)).cooldowns ∧
    (try_place_stone ctx x y).1.playerB = ctx.playerB ∧
    (try_place_stone ctx x y).1.playerW = ctx.playerW ∧
    (undo_last_move ctx).1.playerB = ctx.playerB ∧
    (undo_last_move ctx).1.playerW = ctx.playerW ∧
    (consume_freeze_skip_turn ctx).playerB.cooldowns = ctx.playerB.cooldowns ∧
    (consume_freeze_skip_turn ctx).playerW.cooldowns = ctx.playerW.cooldowns := by
  refine ⟨?_, ?_, ?_, ?_, ?_, (try_cast_cooldowns ctx sid roll).1,
    (try_cast_cooldowns ctx sid roll).2, ?_, ?_, ?_, ?_, ?_, ?_⟩
  · simp [on_turn_begin_cooldowns, get_set_player_same]
  · simp [on_turn_begin_cooldowns, get_set_player_same]
  · simp [on_turn_begin_cooldowns, get_set_player_opp]
  · by_cases hst : ctx.turn_stage = some 0 <;> simp [maybe_start_turn, hst]
  · by_cases hst : ctx.turn_stage = some 0 <;> simp [maybe_start_turn, hst]
  · unfold try_place_stone
    dsimp only
    split_ifs <;> rfl
  · unfold try_place_stone
    dsimp only
    split_ifs <;> rfl
  · unfold undo_last_move
    rcases ctx.move_history.getLast? with _ | ⟨x', y', s'⟩ <;> simp [push_message]
  · unfold undo_last_move
    rcases ctx.move_history.getLast? with _ | ⟨x', y', s'⟩ <;> simp [push_message]
  · unfold consume_freeze_skip_turn maybe_switch_turn push_message set_player get_player
    split_ifs <;> simp
  · unfold consume_freeze_skip_turn maybe_switch_turn push_message set_player get_player
    split_ifs <;> simp

/-! ## C4 — the freeze window does not restrict skill casting

The spec demands that during an open freeze window the only possible outcomes
are (a) casting counter-freeze or (b) skipping the turn, with no other skill
effect executing.  In the code, `maybe_start_turn` leaves the stage at
SKILL (= 1) while the window is open, so the `stage == TURN_STAGE_SKILL`
branch of `handle_keydown` / `handle_mouse_on_panel` lets the frozen side cast
any castable skill; the dedicated `elif … freeze_window_open` branches that
would restrict the window to skill 3 are unreachable.  The theorem below
evaluates the embedding at such a failing input: the frozen side presses
key 2 (freeze-opponent), the jingru effect executes (opponent's frozen flag
set, cooldown charged) while the caster's own frozen flag and the open window
survive and the turn is not skipped. -/

/-- A context in the freeze window: black frozen, window open, SKILL stage,
all cooldowns 0, empty 5×5 board. -/
def ctxF : GameContext :=
  { board := List.replicate 5 (List.replicate 5 0), turn_side := 1,
    move_history := [], state := 1, winner := 0,
    playerB := { freshPlayer with frozen_once := true },
    playerW := freshPlayer,
    skill_ui_state := { sui0 with freeze_window_open := true },
    messages := [], last_move_pos := none,
    config := { cfg0 with BOARD_SIZE := 5 }, turn_stage := some 1 }

/-- C4 failing input: during black's open freeze window, the skill-2 key
executes the freeze-opponent effect (white's frozen flag becomes true and
skill 2's cooldown is charged), while black's frozen flag stays set, the
freeze window stays open, and the turn is not skipped — contradicting the
claim that only counter-freeze can execute and everything else skips. -/
theorem freeze_window_other_skill_executes :
    (handle_skill_key ctxF 2 0).playerW.frozen_once = true ∧
    (handle_skill_key ctxF 2 0).playerB.frozen_once = true ∧
    (handle_skill_key ctxF 2 0).skill_ui_state.freeze_window_open = true ∧
    (handle_skill_key ctxF 2 0).turn_side = 1 ∧
    (handle_skill_key ctxF 2 0).turn_stage = some 1 ∧
    (handle_skill_key ctxF 2 0).playerB.cooldowns 2 = 8 := by
  decide

/-! ## C8 — mighty-power success probability -/

/-- C8: for every board and caster side (with `0 ≤ base ≤ cap`, which holds
for the defaults base = 0.10, cap = 0.18), the computed success probability
equals `clamp(base + 0.02·openThrees + 0.03·openFours, base, cap)` and in
particular always lies in `[base, cap]`.  (The code clamps from below at 0,
but since the bonus is nonnegative the two clamps agree.) -/
theorem mighty_power_prob_spec (ctx : GameContext)
    (_hside : ctx.turn_side = 1 ∨ ctx.turn_side = 2)
    (h0 : 0 ≤ ctx.config.LIBA_BASE)
    (hbc : ctx.config.LIBA_BASE ≤ ctx.config.LIBA_CAP) :
    compute_mighty_power_success ctx =
      max ctx.config.LIBA_BASE (min ctx.config.LIBA_CAP
        (ctx.config.LIBA_BASE +
          ((2 : ℚ) / 100 * (count_open_threes_fours ctx.board ctx.turn_side).1 +
           (3 : ℚ) / 100 * (count_open_threes_fours ctx.board ctx.turn_side).2))) ∧
    ctx.config.LIBA_BASE ≤ compute_mighty_power_success ctx ∧
    compute_mighty_power_success ctx ≤ ctx.config.LIBA_CAP := by
  unfold compute_mighty_power_success
  set base := ctx.config.LIBA_BASE with hbase
  set cap := ctx.config.LIBA_CAP with hcap
  set s := count_open_threes_fours ctx.board ctx.turn_side with hs
  set bonus := (2 : ℚ) / 100 * s.1 + (3 : ℚ) / 100 * s.2 with hbonus
  have hb : 0 ≤ bonus := by
    rw [hbonus]
    positivity
  have hxb : base ≤ base + bonus := by linarith
  have hmin : base ≤ min cap (base + bonus) := le_min hbc hxb
  have hmax0 : max 0 (min cap (base + bonus)) = min cap (base + bonus) :=
    max_eq_right (le_trans h0 hmin)
  have hmaxb : max base (min cap (base + bonus)) = min cap (base + bonus) :=
    max_eq_right hmin
  refine ⟨by rw [hmax0, hmaxb], ?_, ?_⟩
  · rw [hmax0]
    exact hmin
  · rw [hmax0]
    exact min_le_left _ _

/-- Witness for C8: the default configuration (base 0.10 ≤ cap 0.18) on the
empty board (no open patterns, probability = base). -/
theorem mighty_power_prob_spec_witness :
    compute_mighty_power_success ctx0 =
      max ctx0.config.LIBA_BASE (min ctx0.config.LIBA_CAP
        (ctx0.config.LIBA_BASE +
          ((2 : ℚ) / 100 * (count_open_threes_fours ctx0.board ctx0.turn_side).1 +
           (3 : ℚ) / 100 * (count_open_threes_fours ctx0.board ctx0.turn_side).2))) ∧
    ctx0.config.LIBA_BASE ≤ compute_mighty_power_success ctx0 ∧
    compute_mighty_power_success ctx0 ≤ ctx0.config.LIBA_CAP :=
  mighty_power_prob_spec ctx0 (Or.inl rfl) (by norm_num [ctx0, cfg0]) (by norm_num [ctx0, cfg0])

end SG
